import Mathlib

/-!
Shallow embedding of the proot-rs syscall translation core.

Embedded source files:
- src/process/translation.rs : the per-tracee enter/exit syscall translation
  state machine (trait SyscallTranslator for Tracee).
- src/kernel/execve/enter.rs : the execve enter-stage path translator.

External collaborators (register I/O, the filesystem translator, sysarg
decoding) are modelled as explicit inputs: a fallible register fetch becomes
an Option argument, and the pluggable syscall translators and the execve
path collaborators become function arguments. Register words are u64 values,
modelled as Nat with explicit mod 2^64 arithmetic where wrapping matters.
-/

namespace ProotRs

/-- A machine word (u64 in the source). -/
abbrev Word := Nat

/-- The u64 modulus. -/
def wordModulus : Nat := 2 ^ 64

/-- Wrap an integer into the i32 range, two-complement style (models an
`as i32` cast and wrapping i32 arithmetic in the source). -/
def wrapI32 (i : Int) : Int := (i + 2 ^ 31) % 2 ^ 32 - 2 ^ 31

/-- Cast a (possibly negative) integer to u64 with sign extension, i.e.
reduce it modulo 2^64 (models an `as u64` cast of an i64/i32 value). -/
def wordOfInt (i : Int) : Word := (i % (2 ^ 64 : Int)).toNat

/-- Modelled from the spec: the errors module is not part of the observed
core; per the spec, translation errors carry a kernel-equivalent error code
(an errno). An error value is that errno. -/
structure Error where
  errno : Nat
deriving DecidableEq, Repr

/-- Accessor mirroring error.get_errno() in the source. -/
def Error.get_errno (e : Error) : Nat := e.errno

/-- Linux errno ENOENT. -/
def ENOENT : Nat := 2
/-- Linux errno EACCES. -/
def EACCES : Nat := 13
/-- Linux errno EISDIR. -/
def EISDIR : Nat := 21

/-- The word written by `(-(errno as i32)) as Word` in the source: wrap the
errno to i32, negate with i32 wrapping, then sign-extend to u64. -/
def negErrnoWord (e : Nat) : Word := wordOfInt (wrapI32 (- wrapI32 (e : Int)))

/-- Rust Result type specialised to the error type of the source. -/
inductive RsResult (α : Type) where
  | ok (a : α)
  | err (e : Error)
deriving DecidableEq, Repr

/-- The registers addressed by the translation core: the syscall number,
the first syscall argument, the syscall result and the stack pointer. -/
inductive Register where
  | SysNum
  | SysArg1
  | SysResult
  | StackPointer
deriving DecidableEq, Repr

/-- One view of the syscall ABI register file, restricted to the registers
the translation core addresses. -/
structure RegFile where
  sys_num : Word
  sys_arg_1 : Word
  sys_result : Word
  stack_pointer : Word
deriving DecidableEq, Repr

/-- Read one register of a register file. -/
def RegFile.read (f : RegFile) : Register → Word
  | Register.SysNum => f.sys_num
  | Register.SysArg1 => f.sys_arg_1
  | Register.SysResult => f.sys_result
  | Register.StackPointer => f.stack_pointer

/-- Write one register of a register file. -/
def RegFile.write (f : RegFile) : Register → Word → RegFile
  | Register.SysNum, v => { f with sys_num := v }
  | Register.SysArg1, v => { f with sys_arg_1 := v }
  | Register.SysResult, v => { f with sys_result := v }
  | Register.StackPointer, v => { f with stack_pointer := v }

/-- The two snapshot labels of save_current_regs. -/
inductive RegLabel where
  | Original
  | Modified
deriving DecidableEq, Repr

/-- Observable events of one processed stop, used to state which operations
ran and in which order. -/
inductive Event where
  | fetchRegs (ok : Bool)
  | saveRegs (label : RegLabel)
  | runEnterTranslator
  | runExitTranslator
  | cancelSyscall
  | setReg (r : Register) (v : Word)
  | restoreOriginal (r : Register)
  | pushRegs
deriving DecidableEq, Repr

/-- Modelled from the spec: the register module is not part of the observed
core. Per the spec, a Registers value holds three labeled views of the
register file for the current stop (Original, Modified, Current) plus the
restore-original-regs policy flag. -/
structure Registers where
  current : RegFile
  original : RegFile
  modified : RegFile
  restore_original_regs : Bool
deriving DecidableEq, Repr

/-- Modelled from the spec: save(label) copies Current into the named
snapshot. Emits the corresponding event. -/
def Registers.save_current_regs (r : Registers) : RegLabel → Registers × Event
  | RegLabel.Original => ({ r with original := r.current }, Event.saveRegs RegLabel.Original)
  | RegLabel.Modified => ({ r with modified := r.current }, Event.saveRegs RegLabel.Modified)

/-- Modelled from the spec: set(register, value, reason) writes one field of
the Current view; the reason string is diagnostics only and is dropped. -/
def Registers.set (r : Registers) (reg : Register) (v : Word) : Registers × Event :=
  ({ r with current := r.current.write reg v }, Event.setReg reg v)

/-- Modelled from the spec: restore_original(register, reason) copies one
field from the Original snapshot into the Current view. -/
def Registers.restore_original (r : Registers) (reg : Register) : Registers × Event :=
  ({ r with current := r.current.write reg (r.original.read reg) }, Event.restoreOriginal reg)

/-- Modelled from the spec: the no-op syscall number cancel_syscall rewrites
the syscall-number register to, so the kernel performs no real work. -/
def sysnumVoid : Word := 2 ^ 64 - 1

/-- Modelled from the spec: cancel_syscall(reason) rewrites the
syscall-number register of the Current view to the no-op value. -/
def Registers.cancel_syscall (r : Registers) : Registers × Event :=
  ({ r with current := r.current.write Register.SysNum sysnumVoid }, Event.cancelSyscall)

/-- Modelled from the spec: set_restore_original_regs sets the
restore-the-original-registers-at-stop-end policy flag. -/
def Registers.set_restore_original_regs (r : Registers) (b : Bool) : Registers :=
  { r with restore_original_regs := b }

/-- TraceeStatus from src/process/tracee.rs (declaration only; the enum and
its variants are named throughout src/process/translation.rs). -/
inductive TraceeStatus where
  | SysEnter
  | SysExit
  | Error (e : ProotRs.Error)
deriving DecidableEq, Repr

/-- Modelled from the spec: status.is_ok() distinguishes a prior enter-stage
error from a success status in exit-stage processing. -/
def TraceeStatus.is_ok : TraceeStatus → Bool
  | TraceeStatus.Error _ => false
  | _ => true

/-- Modelled from the spec: status.get_errno() extracts the errno recorded
by a prior enter-stage error. -/
def TraceeStatus.get_errno : TraceeStatus → Nat
  | TraceeStatus.Error e => e.errno
  | _ => 0

/-- TraceeRestartMethod from src/process/tracee.rs. -/
inductive TraceeRestartMethod where
  | WithExitStage
  | WithoutExitStage
deriving DecidableEq, Repr

/-- The per-tracee state touched by the translation core: the register
snapshot set, the lifecycle status, the restart mode and the pending
new-executable value recorded by set_new_exec. -/
structure Tracee where
  regs : Registers
  status : TraceeStatus
  restart_how : TraceeRestartMethod
  new_exec : Option String
deriving DecidableEq, Repr

/-- What a pluggable enter-stage translator may do, per the collaborator
interface of the spec: report Ok or an error, write the Current register
view (via set), and record a pending new-exec value (via set_new_exec).
The snapshots, the status and the restart mode are not part of its
interface. -/
structure TranslatorOutcome where
  result : RsResult Unit
  current : RegFile
  new_exec : Option String

/-- What a pluggable exit-stage translator may do: write the Current
register view and the pending new-exec value. -/
structure ExitOutcome where
  current : RegFile
  new_exec : Option String

/-- An enter-stage syscall translator (enter::translate in the source,
dispatching on the syscall number), as a function of the tracee state it
can observe. -/
abbrev EnterTranslator := Tracee → TranslatorOutcome

/-- An exit-stage syscall translator (exit::translate in the source). -/
abbrev ExitTranslator := Tracee → ExitOutcome

/-- Apply an enter-stage translator outcome to the tracee: the Current view
and the pending new-exec value are replaced by what the translator left. -/
def applyEnterOutcome (t : Tracee) (o : TranslatorOutcome) : Tracee :=
  { t with regs := { t.regs with current := o.current }, new_exec := o.new_exec }

/-- Embedding of Tracee::translate_syscall_enter from
src/process/translation.rs: clear the restore policy, save Original, run the
enter translator, save Modified, then either record the error (cancel the
syscall, write the negated errno into the result register, set status
Error) or set status SysExit; finally, on the no-exit-stage fast path,
reset the status to SysEnter and restore the original stack pointer. -/
def translate_syscall_enter (enterT : EnterTranslator) (t : Tracee) : Tracee × List Event :=
  let t0 : Tracee := { t with regs := t.regs.set_restore_original_regs false }
  let savedO := t0.regs.save_current_regs RegLabel.Original
  let t1 : Tracee := { t0 with regs := savedO.1 }
  let out := enterT t1
  let t2 : Tracee := applyEnterOutcome t1 out
  let savedM := t2.regs.save_current_regs RegLabel.Modified
  let t3 : Tracee := { t2 with regs := savedM.1 }
  let stepErr : Tracee × List Event :=
    match out.result with
    | RsResult.err e =>
        let c := t3.regs.cancel_syscall
        let s := c.1.set Register.SysResult (negErrnoWord e.get_errno)
        ({ t3 with regs := s.1, status := TraceeStatus.Error e }, [c.2, s.2])
    | RsResult.ok _ => ({ t3 with status := TraceeStatus.SysExit }, [])
  let t4 := stepErr.1
  if t4.restart_how = TraceeRestartMethod.WithoutExitStage then
    let r := t4.regs.restore_original Register.StackPointer
    ({ t4 with status := TraceeStatus.SysEnter, regs := r.1 },
      savedO.2 :: Event.runEnterTranslator :: savedM.2 :: stepErr.2 ++ [r.2])
  else
    (t4, savedO.2 :: Event.runEnterTranslator :: savedM.2 :: stepErr.2)

/-- Embedding of Tracee::translate_syscall_exit from
src/process/translation.rs: set the restore policy, then either run the
exit translator (status is_ok) or write the recorded negated errno into the
result register; unconditionally reset the status to SysEnter. -/
def translate_syscall_exit (exitT : ExitTranslator) (t : Tracee) : Tracee × List Event :=
  let t0 : Tracee := { t with regs := t.regs.set_restore_original_regs true }
  let step : Tracee × List Event :=
    if t0.status.is_ok then
      let o := exitT t0
      ({ t0 with regs := { t0.regs with current := o.current }, new_exec := o.new_exec },
        [Event.runExitTranslator])
    else
      let s := t0.regs.set Register.SysResult (negErrnoWord t0.status.get_errno)
      ({ t0 with regs := s.1 }, [s.2])
  ({ step.1 with status := TraceeStatus.SysEnter }, step.2)

/-- Embedding of Tracee::translate_syscall from src/process/translation.rs.
The register fetch is external I/O, modelled by the Option argument: some f
means the fetch succeeded and delivered f into the Current view, none means
it failed, in which case the stop is abandoned before any processing. After
the stage runs, the registers are pushed back (an external effect, recorded
as an event; a push failure is logged only and changes no state). -/
def translate_syscall (enterT : EnterTranslator) (exitT : ExitTranslator)
    (fetched : Option RegFile) (t : Tracee) : Tracee × List Event :=
  match fetched with
  | none => (t, [Event.fetchRegs false])
  | some f =>
    let t0 : Tracee := { t with regs := { t.regs with current := f } }
    let step : Tracee × List Event :=
      match t0.status with
      | TraceeStatus.SysEnter => translate_syscall_enter enterT t0
      | TraceeStatus.SysExit => translate_syscall_exit exitT t0
      | TraceeStatus.Error _ => translate_syscall_exit exitT t0
    (step.1, Event.fetchRegs true :: step.2 ++ [Event.pushRegs])

namespace Execve

/-- Embedding of translate from src/kernel/execve/enter.rs. The
collaborators are explicit function arguments: get_sysarg_path reads the
path argument at the given first-syscall-argument word from tracee memory,
expand_shebang resolves the guest path to a host path expanding one level
of interpreter indirection, and detranslate_path reverse-maps the host path
to its canonical guest alias (none meaning no distinct alias). The function
returns the translation result together with the new pending new-exec value
of the tracee (the only tracee state this translator writes, via
set_new_exec). -/
def translate (get_sysarg_path : Word → RsResult String)
    (expand_shebang : String → RsResult String)
    (detranslate_path : String → RsResult (Option String))
    (sys_arg_1 : Word) (new_exec : Option String) : RsResult Unit × Option String :=
  match get_sysarg_path sys_arg_1 with
  | RsResult.err e => (RsResult.err e, new_exec)
  | RsResult.ok user_path =>
    match expand_shebang user_path with
    | RsResult.err e =>
        if e.errno = EISDIR then (RsResult.err (Error.mk EACCES), new_exec)
        else (RsResult.err e, new_exec)
    | RsResult.ok host_path =>
      match detranslate_path host_path with
      | RsResult.ok maybe_path => (RsResult.ok (), some (maybe_path.getD host_path))
      | RsResult.err _ => (RsResult.ok (), none)

end Execve

/-- The status transitions the spec allows per processed stop. -/
def allowedTransition : TraceeStatus → TraceeStatus → Prop
  | TraceeStatus.SysEnter, TraceeStatus.SysExit => True
  | TraceeStatus.SysEnter, TraceeStatus.Error _ => True
  | TraceeStatus.SysEnter, TraceeStatus.SysEnter => True
  | TraceeStatus.SysExit, TraceeStatus.SysEnter => True
  | TraceeStatus.Error _, TraceeStatus.SysEnter => True
  | _, _ => False

/-- For an ordinary errno (positive, far below the i32 bound), the word the
error path writes into the result register is the two-complement encoding
of the negated errno. -/
theorem negErrnoWord_eq_of_lt (e : Nat) (h1 : 0 < e) (h2 : e < 2 ^ 31) :
    negErrnoWord e = 2 ^ 64 - e := by
  unfold negErrnoWord wrapI32 wordOfInt
  have ha : ((e : Int) + 2 ^ 31) % 2 ^ 32 = (e : Int) + 2 ^ 31 :=
    Int.emod_eq_of_lt (by omega) (by omega)
  rw [ha]
  have hb : (e : Int) + 2 ^ 31 - 2 ^ 31 = (e : Int) := by ring
  rw [hb]
  have hc : (-(e : Int) + 2 ^ 31) % 2 ^ 32 = -(e : Int) + 2 ^ 31 :=
    Int.emod_eq_of_lt (by omega) (by omega)
  rw [hc]
  have hd : -(e : Int) + 2 ^ 31 - 2 ^ 31 = -(e : Int) := by ring
  rw [hd]
  have he : (-(e : Int)) % 2 ^ 64 = 2 ^ 64 - (e : Int) := by
    have h64 : (-(e : Int) + 2 ^ 64 * 1) % 2 ^ 64 = (-(e : Int)) % 2 ^ 64 :=
      Int.add_mul_emod_self_left (-(e : Int)) (2 ^ 64) 1
    rw [← h64]
    have hval : -(e : Int) + 2 ^ 64 * 1 = 2 ^ 64 - (e : Int) := by ring
    rw [hval]
    exact Int.emod_eq_of_lt (by omega) (by omega)
  rw [he]
  show ((2 ^ 64 : Int) - (e : Int)).toNat = 2 ^ 64 - e
  omega

/-- A concrete register file used by the concrete evaluations below. -/
def cRegFile : RegFile :=
  { sys_num := 59, sys_arg_1 := 1000, sys_result := 0, stack_pointer := 4096 }

/-- A concrete register snapshot set. -/
def cRegs : Registers :=
  { current := cRegFile, original := cRegFile, modified := cRegFile,
    restore_original_regs := true }

/-- A concrete tracee at the enter stage whose restart mode skips the exit
stage. -/
def cTraceeNoExit : Tracee :=
  { regs := cRegs, status := TraceeStatus.SysEnter,
    restart_how := TraceeRestartMethod.WithoutExitStage, new_exec := none }

/-- A concrete tracee at the enter stage with an exit stage to come. -/
def cTraceeWithExit : Tracee :=
  { cTraceeNoExit with restart_how := TraceeRestartMethod.WithExitStage }

/-- A concrete tracee carrying an enter-stage error into the exit stage. -/
def cTraceeError : Tracee :=
  { cTraceeWithExit with status := TraceeStatus.Error (Error.mk ENOENT) }

/-- A concrete enter translator that always fails with ENOENT and leaves
the registers and the pending new-exec value alone. -/
def cEnterErrENOENT : EnterTranslator :=
  fun t => { result := RsResult.err (Error.mk ENOENT), current := t.regs.current,
             new_exec := t.new_exec }

/-- A concrete enter translator that always succeeds and changes nothing. -/
def cEnterOk : EnterTranslator :=
  fun t => { result := RsResult.ok (), current := t.regs.current, new_exec := t.new_exec }

/-- A concrete exit translator that changes nothing. -/
def cExitId : ExitTranslator :=
  fun t => { current := t.regs.current, new_exec := t.new_exec }

/-- C1: for every tracee and every processed stop (the register fetch
succeeded), translate_syscall advances the status only along SysEnter to
SysExit, SysEnter to Error, SysEnter to SysEnter (fast path), SysExit to
SysEnter, and Error to SysEnter. -/
theorem translate_syscall_status_transition (enterT : EnterTranslator)
    (exitT : ExitTranslator) (f : RegFile) (t : Tracee) :
    allowedTransition t.status (translate_syscall enterT exitT (some f) t).1.status := by
  obtain ⟨regs, status, rh, ne⟩ := t
  cases status
  case SysEnter =>
    cases h : (translate_syscall enterT exitT (some f)
        ⟨regs, TraceeStatus.SysEnter, rh, ne⟩).1.status <;> simp [allowedTransition, h]
  case SysExit => exact trivial
  case Error e => exact trivial

/-- C2 counterexample: a tracee whose restart mode is WithoutExitStage and
whose enter translator fails with ENOENT does not end enter-stage
processing in status Error(ENOENT); the fast path resets it to SysEnter. -/
theorem translate_enter_error_status_counterexample :
    ¬ ((translate_syscall_enter cEnterErrENOENT cTraceeNoExit).1.status =
        TraceeStatus.Error (Error.mk ENOENT)) := by decide

/-- C2 (amended): for every tracee whose enter-stage translator returns an
error carrying errno E, after enter-stage processing the syscall-number
register holds the no-op value, the result register in the Current view
holds -E as a two-complement word, and the status is Error(E) when the
restart mode is WithExitStage, while the WithoutExitStage fast path resets
it to SysEnter. -/
theorem translate_enter_error_effects (enterT : EnterTranslator) (t : Tracee)
    (e : Error) (hE : ∀ u, (enterT u).result = RsResult.err e)
    (h1 : 0 < e.errno) (h2 : e.errno < 2 ^ 31) :
    (translate_syscall_enter enterT t).1.regs.current.sys_num = sysnumVoid ∧
    (translate_syscall_enter enterT t).1.regs.current.sys_result = 2 ^ 64 - e.errno ∧
    (translate_syscall_enter enterT t).1.status =
      (if t.restart_how = TraceeRestartMethod.WithoutExitStage then TraceeStatus.SysEnter
       else TraceeStatus.Error e) := by
  obtain ⟨regs, status, rh, ne⟩ := t
  cases rh <;>
    simp [translate_syscall_enter, hE, applyEnterOutcome, Registers.save_current_regs,
      Registers.set, Registers.cancel_syscall, Registers.restore_original,
      Registers.set_restore_original_regs, RegFile.write, RegFile.read, Error.get_errno,
      negErrnoWord_eq_of_lt e.errno h1 h2]

/-- C2 witness: the amended statement evaluated on a concrete tracee with
an exit stage and a concrete failing translator. -/
theorem translate_enter_error_effects_witness :
    (translate_syscall_enter cEnterErrENOENT cTraceeWithExit).1.regs.current.sys_num
        = sysnumVoid ∧
    (translate_syscall_enter cEnterErrENOENT cTraceeWithExit).1.regs.current.sys_result
        = 2 ^ 64 - (Error.mk ENOENT).errno ∧
    (translate_syscall_enter cEnterErrENOENT cTraceeWithExit).1.status =
      (if cTraceeWithExit.restart_how = TraceeRestartMethod.WithoutExitStage
       then TraceeStatus.SysEnter else TraceeStatus.Error (Error.mk ENOENT)) :=
  translate_enter_error_effects cEnterErrENOENT cTraceeWithExit (Error.mk ENOENT)
    (fun _ => rfl) (by decide) (by decide)

/-- C3: for every tracee entering exit-stage processing with status
Error(E), the result register in the Current view is set to -E as a
two-complement word, the syscall-specific exit translator is not invoked,
and the status is reset to SysEnter at the end of the stage. -/
theorem translate_exit_error_effects (exitT : ExitTranslator) (t : Tracee)
    (e : Error) (h : t.status = TraceeStatus.Error e)
    (h1 : 0 < e.errno) (h2 : e.errno < 2 ^ 31) :
    (translate_syscall_exit exitT t).1.regs.current.sys_result = 2 ^ 64 - e.errno ∧
    Event.runExitTranslator ∉ (translate_syscall_exit exitT t).2 ∧
    (translate_syscall_exit exitT t).1.status = TraceeStatus.SysEnter := by
  simp [translate_syscall_exit, h, TraceeStatus.is_ok, TraceeStatus.get_errno,
    Registers.set, Registers.set_restore_original_regs, RegFile.write,
    negErrnoWord_eq_of_lt e.errno h1 h2]

/-- C3 witness: the statement evaluated on a concrete tracee that carries
an ENOENT enter-stage error into the exit stage. -/
theorem translate_exit_error_effects_witness :
    (translate_syscall_exit cExitId cTraceeError).1.regs.current.sys_result
        = 2 ^ 64 - (Error.mk ENOENT).errno ∧
    Event.runExitTranslator ∉ (translate_syscall_exit cExitId cTraceeError).2 ∧
    (translate_syscall_exit cExitId cTraceeError).1.status = TraceeStatus.SysEnter :=
  translate_exit_error_effects cExitId cTraceeError (Error.mk ENOENT) rfl
    (by decide) (by decide)

/-- C6: for every tracee whose restart mode is WithoutExitStage,
enter-stage processing ends with the status reset to SysEnter and the
stack-pointer register of the Current view restored to its value in the
Original snapshot (which is the Current value at the start of the stage),
whatever the enter translator did or returned. -/
theorem translate_enter_fast_path (enterT : EnterTranslator) (t : Tracee)
    (h : t.restart_how = TraceeRestartMethod.WithoutExitStage) :
    (translate_syscall_enter enterT t).1.status = TraceeStatus.SysEnter ∧
    (translate_syscall_enter enterT t).1.regs.current.stack_pointer =
      (translate_syscall_enter enterT t).1.regs.original.stack_pointer ∧
    (translate_syscall_enter enterT t).1.regs.original.stack_pointer =
      t.regs.current.stack_pointer := by
  obtain ⟨⟨cur, orig, modi, flag⟩, status, rh, nx⟩ := t
  simp only [Tracee.restart_how] at h
  subst h
  rcases hres : (enterT ⟨⟨cur, cur, modi, false⟩, status,
      TraceeRestartMethod.WithoutExitStage, nx⟩).result with a | e <;>
    simp [translate_syscall_enter, Registers.set_restore_original_regs,
      Registers.save_current_regs, applyEnterOutcome, Registers.cancel_syscall,
      Registers.set, Registers.restore_original, RegFile.write, RegFile.read, hres]

/-- C6 witness: the fast-path statement evaluated on a concrete
WithoutExitStage tracee with a concrete failing translator. -/
theorem translate_enter_fast_path_witness :
    (translate_syscall_enter cEnterErrENOENT cTraceeNoExit).1.status
        = TraceeStatus.SysEnter ∧
    (translate_syscall_enter cEnterErrENOENT cTraceeNoExit).1.regs.current.stack_pointer =
      (translate_syscall_enter cEnterErrENOENT cTraceeNoExit).1.regs.original.stack_pointer ∧
    (translate_syscall_enter cEnterErrENOENT cTraceeNoExit).1.regs.original.stack_pointer =
      cTraceeNoExit.regs.current.stack_pointer :=
  translate_enter_fast_path cEnterErrENOENT cTraceeNoExit rfl

/-- Helper: the enter-stage event trace starts with exactly one Original
save, then the enter translator, then exactly one Modified save, and the
remaining events contain no snapshot save at all. -/
theorem translate_enter_trace_shape (enterT : EnterTranslator) (t : Tracee) :
    ∃ rest, (translate_syscall_enter enterT t).2 =
        Event.saveRegs RegLabel.Original :: Event.runEnterTranslator ::
          Event.saveRegs RegLabel.Modified :: rest ∧
        ∀ l : RegLabel, Event.saveRegs l ∉ rest := by
  obtain ⟨⟨cur, orig, modi, flag⟩, status, rh, nx⟩ := t
  rcases hres : (enterT ⟨⟨cur, cur, modi, false⟩, status, rh, nx⟩).result with a | e
  · rcases rh with _ | _
    · exact ⟨[], by
        simp [translate_syscall_enter, Registers.set_restore_original_regs,
          Registers.save_current_regs, applyEnterOutcome, Registers.cancel_syscall,
          Registers.set, Registers.restore_original, hres], by intro l; simp⟩
    · exact ⟨[Event.restoreOriginal Register.StackPointer], by
        simp [translate_syscall_enter, Registers.set_restore_original_regs,
          Registers.save_current_regs, applyEnterOutcome, Registers.cancel_syscall,
          Registers.set, Registers.restore_original, hres], by intro l; simp⟩
  · rcases rh with _ | _
    · exact ⟨[Event.cancelSyscall,
          Event.setReg Register.SysResult (negErrnoWord e.get_errno)], by
        simp [translate_syscall_enter, Registers.set_restore_original_regs,
          Registers.save_current_regs, applyEnterOutcome, Registers.cancel_syscall,
          Registers.set, Registers.restore_original, hres], by intro l; simp⟩
    · exact ⟨[Event.cancelSyscall,
          Event.setReg Register.SysResult (negErrnoWord e.get_errno),
          Event.restoreOriginal Register.StackPointer], by
        simp [translate_syscall_enter, Registers.set_restore_original_regs,
          Registers.save_current_regs, applyEnterOutcome, Registers.cancel_syscall,
          Registers.set, Registers.restore_original, hres], by intro l; simp⟩

/-- Helper: enter-stage processing writes the Original snapshot from the
Current view it starts with. -/
theorem translate_enter_original_eq (enterT : EnterTranslator) (t : Tracee) :
    (translate_syscall_enter enterT t).1.regs.original = t.regs.current := by
  obtain ⟨⟨cur, orig, modi, flag⟩, status, rh, nx⟩ := t
  rcases hres : (enterT ⟨⟨cur, cur, modi, false⟩, status, rh, nx⟩).result with a | e <;>
    rcases rh with _ | _ <;>
      simp [translate_syscall_enter, Registers.set_restore_original_regs,
        Registers.save_current_regs, applyEnterOutcome, Registers.cancel_syscall,
        Registers.set, Registers.restore_original, RegFile.write, RegFile.read, hres]

/-- Helper: exit-stage processing performs no snapshot save and leaves the
Original and Modified snapshots untouched. -/
theorem translate_exit_no_snapshot_write (exitT : ExitTranslator) (t : Tracee) :
    (∀ l : RegLabel, Event.saveRegs l ∉ (translate_syscall_exit exitT t).2) ∧
    (translate_syscall_exit exitT t).1.regs.original = t.regs.original ∧
    (translate_syscall_exit exitT t).1.regs.modified = t.regs.modified := by
  obtain ⟨⟨cur, orig, modi, flag⟩, status, rh, nx⟩ := t
  cases status <;>
    simp [translate_syscall_exit, Registers.set_restore_original_regs, Registers.set,
      TraceeStatus.is_ok, TraceeStatus.get_errno, RegFile.write]

/-- C7: on a processed enter-stage stop, the Original snapshot is written
exactly once, from the fetched Current view, before the enter translator
runs, and the Modified snapshot is written exactly once, after the enter
translator completes; no further save happens later in the stop, and a
processed exit-stage stop writes neither snapshot. -/
theorem snapshot_write_protocol (enterT : EnterTranslator) (exitT : ExitTranslator)
    (f : RegFile) (t u : Tracee)
    (ht : t.status = TraceeStatus.SysEnter) (hu : u.status ≠ TraceeStatus.SysEnter) :
    (∃ rest, (translate_syscall enterT exitT (some f) t).2 =
        Event.fetchRegs true :: Event.saveRegs RegLabel.Original ::
          Event.runEnterTranslator :: Event.saveRegs RegLabel.Modified :: rest ∧
        ∀ l : RegLabel, Event.saveRegs l ∉ rest) ∧
    (translate_syscall enterT exitT (some f) t).1.regs.original = f ∧
    (∀ l : RegLabel, Event.saveRegs l ∉ (translate_syscall enterT exitT (some f) u).2) ∧
    (translate_syscall enterT exitT (some f) u).1.regs.original = u.regs.original ∧
    (translate_syscall enterT exitT (some f) u).1.regs.modified = u.regs.modified := by
  obtain ⟨regs, status, rh, nx⟩ := t
  obtain ⟨uregs, ustatus, urh, unx⟩ := u
  simp only [Tracee.status] at ht hu
  subst ht
  refine ⟨?_, ?_, ?_, ?_, ?_⟩
  · obtain ⟨rest, hshape, hmem⟩ :=
      translate_enter_trace_shape enterT
        { regs := { regs with current := f }, status := TraceeStatus.SysEnter,
          restart_how := rh, new_exec := nx }
    refine ⟨rest ++ [Event.pushRegs], ?_, ?_⟩
    · simp [translate_syscall, hshape]
    · intro l
      simp [List.mem_append]
      exact hmem l
  · have := translate_enter_original_eq enterT
      { regs := { regs with current := f }, status := TraceeStatus.SysEnter,
        restart_how := rh, new_exec := nx }
    simpa [translate_syscall] using this
  · intro l
    cases ustatus
    case SysEnter => exact absurd rfl hu
    case SysExit =>
      have := (translate_exit_no_snapshot_write exitT
        { regs := { uregs with current := f }, status := TraceeStatus.SysExit,
          restart_how := urh, new_exec := unx }).1 l
      simp [translate_syscall, List.mem_append] at this ⊢
      exact this
    case Error e =>
      have := (translate_exit_no_snapshot_write exitT
        { regs := { uregs with current := f }, status := TraceeStatus.Error e,
          restart_how := urh, new_exec := unx }).1 l
      simp [translate_syscall, List.mem_append] at this ⊢
      exact this
  · cases ustatus
    case SysEnter => exact absurd rfl hu
    case SysExit =>
      have := (translate_exit_no_snapshot_write exitT
        { regs := { uregs with current := f }, status := TraceeStatus.SysExit,
          restart_how := urh, new_exec := unx }).2.1
      simpa [translate_syscall] using this
    case Error e =>
      have := (translate_exit_no_snapshot_write exitT
        { regs := { uregs with current := f }, status := TraceeStatus.Error e,
          restart_how := urh, new_exec := unx }).2.1
      simpa [translate_syscall] using this
  · cases ustatus
    case SysEnter => exact absurd rfl hu
    case SysExit =>
      have := (translate_exit_no_snapshot_write exitT
        { regs := { uregs with current := f }, status := TraceeStatus.SysExit,
          restart_how := urh, new_exec := unx }).2.2
      simpa [translate_syscall] using this
    case Error e =>
      have := (translate_exit_no_snapshot_write exitT
        { regs := { uregs with current := f }, status := TraceeStatus.Error e,
          restart_how := urh, new_exec := unx }).2.2
      simpa [translate_syscall] using this

/-- C7 witness: the snapshot protocol evaluated at a concrete enter-stage
tracee and a concrete exit-stage tracee. -/
theorem snapshot_write_protocol_witness :
    (∃ rest, (translate_syscall cEnterOk cExitId (some cRegFile) cTraceeWithExit).2 =
        Event.fetchRegs true :: Event.saveRegs RegLabel.Original ::
          Event.runEnterTranslator :: Event.saveRegs RegLabel.Modified :: rest ∧
        ∀ l : RegLabel, Event.saveRegs l ∉ rest) ∧
    (translate_syscall cEnterOk cExitId (some cRegFile) cTraceeWithExit).1.regs.original
        = cRegFile ∧
    (∀ l : RegLabel, Event.saveRegs l ∉
        (translate_syscall cEnterOk cExitId (some cRegFile) cTraceeError).2) ∧
    (translate_syscall cEnterOk cExitId (some cRegFile) cTraceeError).1.regs.original
        = cTraceeError.regs.original ∧
    (translate_syscall cEnterOk cExitId (some cRegFile) cTraceeError).1.regs.modified
        = cTraceeError.regs.modified :=
  snapshot_write_protocol cEnterOk cExitId cRegFile cTraceeWithExit cTraceeError
    rfl (by decide)

/-- C8: if fetching the registers fails, translate_syscall abandons the
stop with no state mutation at all: the tracee (status, all three register
snapshots, the pending new-exec value) is returned unchanged, and the only
recorded event is the failed fetch, so neither translator runs and no
register push is attempted. -/
theorem translate_syscall_fetch_failure (enterT : EnterTranslator)
    (exitT : ExitTranslator) (t : Tracee) :
    (translate_syscall enterT exitT none t).1 = t ∧
    (translate_syscall enterT exitT none t).2 = [Event.fetchRegs false] ∧
    Event.pushRegs ∉ (translate_syscall enterT exitT none t).2 ∧
    Event.runEnterTranslator ∉ (translate_syscall enterT exitT none t).2 ∧
    Event.runExitTranslator ∉ (translate_syscall enterT exitT none t).2 := by
  refine ⟨rfl, rfl, ?_, ?_, ?_⟩ <;> simp [translate_syscall]

/-- A concrete sysarg path reader that succeeds. -/
def cGetPathOk : Word → RsResult String := fun _ => RsResult.ok "/bin/script.sh"

/-- A concrete sysarg path reader that fails with ENOENT. -/
def cGetPathErr : Word → RsResult String := fun _ => RsResult.err (Error.mk ENOENT)

/-- A concrete shebang expansion that succeeds with a host path. -/
def cExpandOk : String → RsResult String := fun _ => RsResult.ok "/host/bin/sh"

/-- A concrete shebang expansion that fails with EISDIR. -/
def cExpandIsDir : String → RsResult String := fun _ => RsResult.err (Error.mk EISDIR)

/-- A concrete detranslation that yields a guest alias. -/
def cDetransAlias : String → RsResult (Option String) := fun _ => RsResult.ok (some "/bin/sh")

/-- A concrete detranslation that fails. -/
def cDetransErr : String → RsResult (Option String) := fun _ => RsResult.err (Error.mk ENOENT)

/-- C4: in execve enter translation, an error from reading the path
argument propagates unchanged, an EISDIR error from shebang expansion is
remapped to EACCES, and every other shebang-expansion error propagates
unchanged. -/
theorem execve_translate_error_normalization (gp : Word → RsResult String)
    (ex : String → RsResult String) (dt : String → RsResult (Option String))
    (a : Word) (nx : Option String) (up : String) (e : Error) :
    (gp a = RsResult.err e → (Execve.translate gp ex dt a nx).1 = RsResult.err e) ∧
    (gp a = RsResult.ok up → ex up = RsResult.err e →
      (Execve.translate gp ex dt a nx).1 =
        (if e.errno = EISDIR then RsResult.err (Error.mk EACCES)
         else RsResult.err e)) := by
  constructor
  · intro h
    simp [Execve.translate, h]
  · intro h1 h2
    rcases he : decide (e.errno = EISDIR) with _ | _
    · simp at he
      simp [Execve.translate, h1, h2, he]
    · simp at he
      simp [Execve.translate, h1, h2, he]

/-- C4 witness: executing a directory: the shebang expansion fails with
EISDIR and the translation returns EACCES. -/
theorem execve_translate_error_normalization_witness :
    (Execve.translate cGetPathOk cExpandIsDir cDetransAlias 1000 none).1 =
      (if (Error.mk EISDIR).errno = EISDIR then RsResult.err (Error.mk EACCES)
       else RsResult.err (Error.mk EISDIR)) :=
  (execve_translate_error_normalization cGetPathOk cExpandIsDir cDetransAlias 1000 none
    "/bin/script.sh" (Error.mk EISDIR)).2 rfl rfl

/-- C5: when the path argument is read and the shebang chain expands to
host path H, the pending new-exec value after execve enter translation is
the alias if detranslation returns one, H itself if detranslation succeeds
with no alias, and cleared to none if detranslation fails. -/
theorem execve_translate_new_exec (gp : Word → RsResult String)
    (ex : String → RsResult String) (dt : String → RsResult (Option String))
    (a : Word) (nx : Option String) (up hp : String)
    (h1 : gp a = RsResult.ok up) (h2 : ex up = RsResult.ok hp) :
    (Execve.translate gp ex dt a nx).2 =
      (match dt hp with
       | RsResult.ok (some gpath) => some gpath
       | RsResult.ok none => some hp
       | RsResult.err _ => none) := by
  rcases hd : dt hp with m | e
  · rcases m with _ | gpath <;> simp [Execve.translate, h1, h2, hd]
  · simp [Execve.translate, h1, h2, hd]

/-- C5 witness: with a detranslation returning a guest alias, the pending
new-exec value is that alias. -/
theorem execve_translate_new_exec_witness :
    (Execve.translate cGetPathOk cExpandOk cDetransAlias 1000 none).2 =
      (match cDetransAlias "/host/bin/sh" with
       | RsResult.ok (some gpath) => some gpath
       | RsResult.ok none => some "/host/bin/sh"
       | RsResult.err _ => none) :=
  execve_translate_new_exec cGetPathOk cExpandOk cDetransAlias 1000 none
    "/bin/script.sh" "/host/bin/sh" rfl rfl

/-- C9: if reading the path argument or expanding the shebang chain fails,
the pending new-exec value of the tracee is left exactly as it was: it is
neither set nor cleared. -/
theorem execve_translate_error_preserves_new_exec (gp : Word → RsResult String)
    (ex : String → RsResult String) (dt : String → RsResult (Option String))
    (a : Word) (nx : Option String) (up : String) (e : Error) :
    (gp a = RsResult.err e → (Execve.translate gp ex dt a nx).2 = nx) ∧
    (gp a = RsResult.ok up → ex up = RsResult.err e →
      (Execve.translate gp ex dt a nx).2 = nx) := by
  constructor
  · intro h
    simp [Execve.translate, h]
  · intro h1 h2
    rcases he : decide (e.errno = EISDIR) with _ | _
    · simp at he
      simp [Execve.translate, h1, h2, he]
    · simp at he
      simp [Execve.translate, h1, h2, he]

/-- C9 witness: a failed path read leaves a previously pending value in
place. -/
theorem execve_translate_error_preserves_new_exec_witness :
    (Execve.translate cGetPathErr cExpandOk cDetransAlias 1000 (some "/old/exe")).2 =
      some "/old/exe" :=
  (execve_translate_error_preserves_new_exec cGetPathErr cExpandOk cDetransAlias 1000
    (some "/old/exe") "/bin/script.sh" (Error.mk ENOENT)).1 rfl

/-- C10: when the path argument is read and the shebang chain expands
successfully, execve enter translation returns Ok whatever detranslation
does; a detranslation failure never cancels the syscall. -/
theorem execve_translate_ok_despite_detranslation (gp : Word → RsResult String)
    (ex : String → RsResult String) (dt : String → RsResult (Option String))
    (a : Word) (nx : Option String) (up hp : String)
    (h1 : gp a = RsResult.ok up) (h2 : ex up = RsResult.ok hp) :
    (Execve.translate gp ex dt a nx).1 = RsResult.ok () := by
  rcases hd : dt hp with m | e <;> simp [Execve.translate, h1, h2, hd]

/-- C10 witness: the translation returns Ok even though the concrete
detranslation fails. -/
theorem execve_translate_ok_despite_detranslation_witness :
    (Execve.translate cGetPathOk cExpandOk cDetransErr 1000 (some "/old/exe")).1 =
      RsResult.ok () :=
  execve_translate_ok_despite_detranslation cGetPathOk cExpandOk cDetransErr 1000
    (some "/old/exe") "/bin/script.sh" "/host/bin/sh" rfl rfl

end ProotRs
